import Mathlib

/-!
Shallow embedding of the ingestion engine of the goodyearwelt-reviews
repository, together with proofs about its persistence, pagination,
rate-limit and URL-classification behaviour.

Source files embedded below:
  - src/scrape/common.py   (insert_or_ignore)
  - src/fetch.py           (paginated_search, get_oldest_submission, main)
  - src/scrape/images.py   (ImgurClient, get_id, sniff_imgur_resource, main)
  - src/scrape/zappos.py   (ZapposClient.product_description, paginated_search, main)
-/

namespace GWR

/-! ## Idempotent persistence (src/scrape/common.py, insert_or_ignore)

`insert_or_ignore` executes `insert or ignore into {table} (...) values (...)`.
SQLite semantics for INSERT OR IGNORE: if inserting the row would violate a
uniqueness constraint (a row with the same natural/unique key already exists)
or a not-null constraint, the statement is a no-op; otherwise the row is
appended.  A table is modelled as a list of rows `ρ`, the natural/unique key
by a key-extraction function `keyOf : ρ → κ`, and the not-null constraints by
a per-row check `notNullOk`. -/

variable {ρ κ : Type}

/-- A row with the same natural/unique key is already present. -/
def conflicts [DecidableEq κ] (keyOf : ρ → κ) (table : List ρ) (row : ρ) : Bool :=
  table.any fun r => decide (keyOf r = keyOf row)

/-- INSERT OR IGNORE: append the row unless a constraint is violated. -/
def insert_or_ignore [DecidableEq κ] (keyOf : ρ → κ) (notNullOk : ρ → Bool)
    (table : List ρ) (row : ρ) : List ρ :=
  if notNullOk row && !(conflicts keyOf table row) then table ++ [row] else table

/-- Insert the same row `n` times in a row. -/
def repeatInsert [DecidableEq κ] (keyOf : ρ → κ) (notNullOk : ρ → Bool)
    (table : List ρ) (row : ρ) : Nat → List ρ
  | 0 => table
  | n + 1 => insert_or_ignore keyOf notNullOk (repeatInsert keyOf notNullOk table row n) row

/-- A not-null check that every row satisfies (a table without not-null
constraints); used to instantiate the persistence model on concrete data. -/
def notNullOkAlways {ρ : Type} : ρ → Bool := fun _ => true

/-- Number of rows in the table carrying the given key. -/
def countKey [DecidableEq κ] (keyOf : ρ → κ) (table : List ρ) (k : κ) : Nat :=
  (table.filter fun r => decide (keyOf r = k)).length

/-! ## Orchestrator transaction endings

`src/fetch.py` main, `src/scrape/images.py` main and `src/scrape/zappos.py`
main all run the ingest inside one sqlite transaction and decide
commit/rollback from the kind of exception that ended the run.  The store is
modelled as a single generic table; `insertsSoFar` is the sequence of
`insert_or_ignore` calls the run performed before it ended. -/

/-- Apply a sequence of insert-or-ignore writes to the pending transaction. -/
def applyInserts [DecidableEq κ] (keyOf : ρ → κ) (notNullOk : ρ → Bool)
    (table : List ρ) (rows : List ρ) : List ρ :=
  rows.foldl (insert_or_ignore keyOf notNullOk) table

/-- How a run of `src/scrape/images.py main` ended:
`completed` — the try-block finished; `throttled` — `RateLimitError` or
`requests.Timeout` was raised; `failed` — any other exception
(sqlite constraint violation, the `HTTPError` that
`Client.on_failure` re-raises on a 401/403, ...). -/
inductive ImagesRunEnd
  | completed
  | throttled
  | failed
deriving DecidableEq

/-- `src/scrape/images.py main`, transaction epilogue (lines 267-281):
`except (RateLimitError, requests.Timeout)` commits with status 1,
`except Exception` rolls back with status 1, `else` commits with status 0.
Returns the table visible after `conn.close()` and the exit status. -/
def imagesMain [DecidableEq κ] (keyOf : ρ → κ) (notNullOk : ρ → Bool)
    (initial : List ρ) (insertsSoFar : List ρ) (outcome : ImagesRunEnd) :
    List ρ × Int :=
  match outcome with
  | .completed => (applyInserts keyOf notNullOk initial insertsSoFar, 0)
  | .throttled => (applyInserts keyOf notNullOk initial insertsSoFar, 1)
  | .failed => (initial, 1)

/-- How a run of `src/scrape/zappos.py main` ended: the only except clause
is `except Exception`. -/
inductive ZapposRunEnd
  | completed
  | failed
deriving DecidableEq

/-- `src/scrape/zappos.py main`, transaction epilogue (lines 243-256):
on `except Exception`, `if not args.fetch: conn.rollback() else: conn.commit()`
with status 1; on success commit with status 0. `fetchMode` is `args.fetch`. -/
def zapposMain [DecidableEq κ] (keyOf : ρ → κ) (notNullOk : ρ → Bool)
    (fetchMode : Bool) (initial : List ρ) (insertsSoFar : List ρ)
    (outcome : ZapposRunEnd) : List ρ × Int :=
  match outcome with
  | .completed => (applyInserts keyOf notNullOk initial insertsSoFar, 0)
  | .failed =>
    (if fetchMode then applyInserts keyOf notNullOk initial insertsSoFar else initial, 1)

/-! ## Image-host client (src/scrape/images.py, ImgurClient)

An HTTP response is modelled by its status code, the two parsed rate-limit
headers (`X-RateLimit-UserRemaining`, `X-RateLimit-ClientRemaining`; `none`
when the header is absent) and the parsed JSON body.  `requests.Response.ok`
is true exactly when the status code is below 400. -/

/-- An image-host HTTP response with parsed body `β`. -/
structure ImgurResponse (β : Type) where
  status : Nat
  userRemaining : Option Nat
  clientRemaining : Option Nat
  body : β
deriving DecidableEq

/-- `requests.Response.ok`: status code below 400. -/
def respOk {β : Type} (r : ImgurResponse β) : Bool :=
  r.status < 400

/-- `ImgurClient.min_stopping_credits`. -/
def min_stopping_credits : Nat := 3

/-- The inner `hit_threshold` of `ImgurClient.near_rate_limit`: an absent
header never hits the threshold; a present counter hits it when at or below
`min_stopping_credits`. -/
def hit_threshold (credits : Option Nat) : Bool :=
  match credits with
  | none => false
  | some c => c ≤ min_stopping_credits

/-- `ImgurClient.near_rate_limit`: either counter at or below the margin. -/
def near_rate_limit {β : Type} (r : ImgurResponse β) : Bool :=
  hit_threshold r.userRemaining || hit_threshold r.clientRemaining

/-- Observable outcome of `ImgurClient.get_json`:
`rateLimited` — `RateLimitError` raised; `authFailure` — the `HTTPError`
raised by `response.raise_for_status()` on a 401/403; `noData` — the failure
was logged and `None` returned; `success` — the parsed body was returned. -/
inductive GetJsonOutcome (β : Type)
  | rateLimited
  | authFailure
  | noData
  | success (body : β)
deriving DecidableEq

/-- `Client.fail_on_statuses`. -/
def fail_on_statuses : List Nat := [401, 403]

/-- `ImgurClient.on_failure` (with the `Client.on_failure` fallback):
a 429 raises `RateLimitError`, a 401/403 re-raises via `raise_for_status`,
anything else only logs (so `get_json` then returns `None`). -/
def imgur_on_failure {β : Type} (status : Nat) : GetJsonOutcome β :=
  if status = 429 then .rateLimited
  else if status ∈ fail_on_statuses then .authFailure
  else .noData

/-- `ImgurClient.get_json`: on a non-ok response defer to `on_failure` and
otherwise return `None`; on an ok response raise `RateLimitError` when near
the rate limit, else return the parsed JSON body. -/
def get_json {β : Type} (r : ImgurResponse β) : GetJsonOutcome β :=
  if !(respOk r) then imgur_on_failure r.status
  else if near_rate_limit r then .rateLimited
  else .success r.body

/-! ## Cursor-based paginated search (src/fetch.py lines 75-92;
src/scrape/subreddit.py lines 60-77 is the identical function)

The loop issues a request with the current cursor; a non-ok response is
logged and ends the stream; otherwise the page is emitted, the next cursor is
read from the page body (`response.json()["data"]["after"]`) and a null
cursor ends the stream.  The Python code treats the cursor as an opaque
value only compared against `None`, so the cursor type is a parameter `α`;
the backend (`search`) maps a cursor to a response.  Recursion is fuelled,
since a backend that keeps producing cursors yields an endless stream. -/

/-- A search-result page: `ok` is `response.ok`, `after` the next cursor in
the page body, `itemCount` the number of children in the listing. -/
structure SearchPage (α : Type) where
  ok : Bool
  after : Option α
  itemCount : Nat
deriving DecidableEq

/-- `paginated_search` (src/fetch.py): the finite list of pages emitted by
the generator, given `fuel` as an upper bound on the number of requests. -/
def paginated_search {α : Type} (backend : Option α → SearchPage α) :
    Nat → Option α → List (SearchPage α)
  | 0, _ => []
  | fuel + 1, after =>
    let response := backend after
    if !response.ok then []
    else
      response ::
        (match response.after with
         | none => []
         | some a => paginated_search backend fuel (some a))

/-- A mocked backend serving `N` items at page size `P`, newest first: the
cursor is the offset of the next item; each page is ok, carries
`min P (N - k)` items and a next cursor iff items remain past this page. -/
def mkBackend (N P : Nat) : Option Nat → SearchPage Nat :=
  fun cursor =>
    let k := cursor.getD 0
    { ok := true
      itemCount := min P (N - k)
      after := if k + P < N then some (k + P) else none }

/-- A backend whose every response is non-2xx; used to instantiate the
pagination model on concrete data. -/
def failBackend : Option Nat → SearchPage Nat :=
  fun _ => { ok := false, after := none, itemCount := 0 }

/-! ## Retail-catalog paginated search (src/scrape/zappos.py lines 151-168)

`paginated_search(client, term)` requests pages starting at 1, records the
`totalResultCount` of the first page as the stopping total, accumulates each
page's results and loops while the total is unset or the accumulated count is
below it.  The backend maps a page number to a page; the embedding also
counts the requests issued, and is fuelled (`none` = the while loop was still
running when the fuel ran out). -/

/-- A catalog search response page. -/
structure CatalogPage (α : Type) where
  totalResultCount : Nat
  results : List α
deriving DecidableEq

/-- The while loop of `zappos.paginated_search`: state is the next page
number, the `stop_at` total (`none` until the first page is read) and the
accumulated results; returns the results together with the number of
requests issued. -/
def zapposSearchGo {α : Type} (backend : Nat → CatalogPage α) :
    Nat → Nat → Option Nat → List α → Option (List α × Nat)
  | 0, _, _, _ => none
  | fuel + 1, page, stop_at, results =>
    let keepGoing : Bool :=
      match stop_at with
      | none => true
      | some t => results.length < t
    if keepGoing then
      let response := backend page
      let stop_at2 := some (stop_at.getD response.totalResultCount)
      (zapposSearchGo backend fuel (page + 1) stop_at2 (results ++ response.results)).map
        (fun p => (p.1, p.2 + 1))
    else some (results, 0)

/-- `zappos.paginated_search`: start at page 1 with no total and no results. -/
def zappos_paginated_search {α : Type} (backend : Nat → CatalogPage α)
    (fuel : Nat) : Option (List α × Nat) :=
  zapposSearchGo backend fuel 1 none []

/-- A catalog backend reporting a fixed total of 3 with one result per page;
used to instantiate the retail pagination model on concrete data. -/
def constCatalogBackend : Nat → CatalogPage Nat :=
  fun _ => { totalResultCount := 3, results := [9] }

/-! ## URL parsing helpers

`get_id` and `sniff_imgur_resource` rely on `urllib.parse.urlparse` and
`pathlib.Path.stem`.  Their behaviour on the URL shapes the scraper handles
(`scheme://netloc/path`, optional `?query` and `#fragment`) is embedded over
character lists: `urlparse` removes the fragment (text after the first `#`)
and the query (text after the first `?`), and `path` is what follows the
first `/` after the `://` marker (empty when there is no slash). -/

/-- Characters strictly before the first occurrence of `c`. -/
def takeUntilChar (c : Char) : List Char → List Char
  | [] => []
  | x :: xs => if x = c then [] else x :: takeUntilChar c xs

/-- Characters after the first `://` marker, when present. -/
def afterSchemeMarker : List Char → Option (List Char)
  | [] => none
  | ':' :: '/' :: '/' :: rest => some rest
  | _ :: rest => afterSchemeMarker rest

/-- Split a character list on a separator character (like `str.split`). -/
def splitOnChar (c : Char) : List Char → List (List Char)
  | [] => [[]]
  | x :: xs =>
    let rest := splitOnChar c xs
    if x = c then [] :: rest
    else
      match rest with
      | [] => [[x]]
      | r :: rs => (x :: r) :: rs

/-- Join character lists with a separator character. -/
def joinWithChar (c : Char) : List (List Char) → List Char
  | [] => []
  | [x] => x
  | x :: xs => x ++ c :: joinWithChar c xs

/-- `urlparse(url).path` for `scheme://netloc/...` URLs: strip the fragment
and the query, then everything from the first slash after the netloc (the
whole remainder when no `://` marker is present). -/
def urlPathChars (url : List Char) : List Char :=
  let noFragment := takeUntilChar '#' url
  let noQuery := takeUntilChar '?' noFragment
  match afterSchemeMarker noQuery with
  | none => noQuery
  | some hostAndPath => hostAndPath.dropWhile (fun ch => ch ≠ '/')

/-- The non-empty path segments of the URL:
`[slug for slug in parsed.path.split("/") if slug]`. -/
def pathSlugs (url : String) : List String :=
  (((splitOnChar '/' (urlPathChars url.data)).filter
    (fun s => !s.isEmpty)).map String.mk)

/-- `pathlib.Path(name).stem`: the name without its final `.suffix`; a dot
in first position does not start a suffix (`Path(".jpg").stem == ".jpg"`). -/
def pathStemChars (name : List Char) : List Char :=
  let parts := splitOnChar '.' name
  if parts.length ≤ 1 ∨ parts.dropLast = [[]] then name
  else joinWithChar '.' parts.dropLast

/-- `get_id` (src/scrape/images.py lines 147-153): take the last non-empty
path segment (`*_, end = [...]` raises `ValueError`, modelled `Except.error`,
when there is none), split off a `#` anchor, drop the file extension.  The
returned value is always a `str` (`Path.stem`), modelled `Except.ok (some _)`,
even though the annotated return type is `Optional[str]`. -/
def get_id (url : String) : Except Unit (Option String) :=
  match (pathSlugs url).getLast? with
  | none => Except.error ()
  | some lastSlug =>
    let id0 := takeUntilChar '#' lastSlug.data
    Except.ok (some (String.mk (pathStemChars id0)))

/-- The fixed `known_resource_types` map of `sniff_imgur_resource`. -/
def known_resource_types : List (String × String) :=
  [("a", "album"), ("gallery", "gallery"), ("image", "image")]

/-- `sniff_imgur_resource` (src/scrape/images.py lines 127-145): one path
segment means a direct image; with no segment the unpacking
`resource_type, *_ = slugs` raises `ValueError`; otherwise look the first
segment up in the fixed map (`None` when unknown). -/
def sniff_imgur_resource (url : String) : Except Unit (Option String) :=
  let slugs := pathSlugs url
  if slugs.length = 1 then Except.ok (some "image")
  else
    match slugs with
    | [] => Except.error ()
    | resource_type :: _ => Except.ok (known_resource_types.lookup resource_type)

/-- What the per-media loop body of `ingest_albums` / `ingest_standalones`
(src/scrape/images.py lines 190-194, 210-214) does with one URL:
the `ValueError` from `get_id` propagates (`raised`), the `hash_ is None`
branch logs and skips (`skipped`), otherwise the item is processed with the
extracted hash. -/
inductive IngestStep
  | raised
  | skipped
  | processed (hash : String)
deriving DecidableEq

/-- The hash-extraction head of the ingest loop body. -/
def ingest_media_step (url : String) : IngestStep :=
  match get_id url with
  | .error _ => .raised
  | .ok none => .skipped
  | .ok (some h) => .processed h

/-! ## Resume cursor (src/fetch.py, get_oldest_submission)

`select id from submission_facts where search_query = ? order by
created_utc asc limit 1`: among the rows matching the query, the id of one
with minimal creation timestamp, or null when none matches.  A
`submission_facts` row is modelled by the three columns the query touches. -/

/-- One row of the `submission_facts` table (the columns the resume query
reads). -/
structure SubmissionFact where
  id : String
  created_utc : Int
  search_query : String
deriving DecidableEq

/-- `order by created_utc asc limit 1` over a list of rows: a row with
minimal `created_utc` (`none` on the empty list). -/
def oldestFact : List SubmissionFact → Option SubmissionFact
  | [] => none
  | f :: fs =>
    match oldestFact fs with
    | none => some f
    | some g => if g.created_utc < f.created_utc then some g else some f

/-- `get_oldest_submission` (src/fetch.py lines 139-152). -/
def get_oldest_submission (rows : List SubmissionFact) (query : String) :
    Option String :=
  (oldestFact (rows.filter fun r => r.search_query == query)).map (·.id)

/-! ## Retail-catalog product fetch precondition
(src/scrape/zappos.py, ZapposClient.product_description, lines 126-133) -/

/-- `ZapposClient.base_url`. -/
def zappos_base_url : String := "http://api.zappos.com"

/-- First observable action of `ZapposClient.product_description`:
either the `ValueError` guard fires, or the product-detail request is
dispatched. -/
inductive ProductDescStep
  | valueError
  | request (url : String)
deriving DecidableEq

/-- `ZapposClient.product_description`, head of the function: negative ids
raise `ValueError("`product_id` cannot be negative")` before any HTTP
request; otherwise the product URL is built and dispatched. -/
def product_description (product_id : Int) : ProductDescStep :=
  if product_id < 0 then .valueError
  else .request (zappos_base_url ++ "/Product/" ++ toString product_id)

/-! ## Helper lemmas about insert-or-ignore -/

theorem conflicts_eq_false_iff {ρ κ : Type} [DecidableEq κ] (keyOf : ρ → κ)
    (t : List ρ) (r : ρ) :
    conflicts keyOf t r = false ↔ countKey keyOf t (keyOf r) = 0 := by
  simp [conflicts, countKey, List.any_eq_false, List.length_eq_zero,
    List.filter_eq_nil_iff]

theorem insert_or_ignore_of_conflicts {ρ κ : Type} [DecidableEq κ]
    {keyOf : ρ → κ} (notNullOk : ρ → Bool) {t : List ρ} {r : ρ}
    (h : conflicts keyOf t r = true) :
    insert_or_ignore keyOf notNullOk t r = t := by
  simp [insert_or_ignore, h]

theorem conflicts_append_self {ρ κ : Type} [DecidableEq κ] (keyOf : ρ → κ)
    (t : List ρ) (r : ρ) : conflicts keyOf (t ++ [r]) r = true := by
  simp [conflicts]

theorem countKey_append_self {ρ κ : Type} [DecidableEq κ] (keyOf : ρ → κ)
    (t : List ρ) (r : ρ) :
    countKey keyOf (t ++ [r]) (keyOf r) = countKey keyOf t (keyOf r) + 1 := by
  simp [countKey]

/-! ## Helper lemmas about the resume-cursor query -/

theorem oldestFact_mem : ∀ {l : List SubmissionFact} {g : SubmissionFact},
    oldestFact l = some g → g ∈ l := by
  intro l
  induction l with
  | nil => intro g h; simp [oldestFact] at h
  | cons f fs ih =>
    intro g h
    rw [oldestFact] at h
    cases h0 : oldestFact fs with
    | none =>
      rw [h0] at h
      simp only at h
      cases h
      exact List.mem_cons_self f fs
    | some g0 =>
      rw [h0] at h
      simp only at h
      by_cases hlt : g0.created_utc < f.created_utc
      · rw [if_pos hlt] at h
        cases h
        exact List.mem_cons_of_mem f (ih h0)
      · rw [if_neg hlt] at h
        cases h
        exact List.mem_cons_self f fs

theorem oldestFact_cons_ne_none (f : SubmissionFact)
    (fs : List SubmissionFact) (h : oldestFact (f :: fs) = none) : False := by
  rw [oldestFact] at h
  cases h0 : oldestFact fs with
  | none => rw [h0] at h; simp only at h; cases h
  | some g =>
    rw [h0] at h
    simp only at h
    by_cases hlt : g.created_utc < f.created_utc
    · rw [if_pos hlt] at h; cases h
    · rw [if_neg hlt] at h; cases h

theorem oldestFact_of_min {l : List SubmissionFact} {r : SubmissionFact}
    (hr : r ∈ l)
    (hmin : ∀ s ∈ l, s = r ∨ r.created_utc < s.created_utc) :
    oldestFact l = some r := by
  induction l with
  | nil => cases hr
  | cons f fs ih =>
    rw [oldestFact]
    cases h0 : oldestFact fs with
    | none =>
      have hfs : fs = [] := by
        cases fs with
        | nil => rfl
        | cons a as => exact (oldestFact_cons_ne_none a as h0).elim
      subst hfs
      have hrf : r = f := by simpa using hr
      simp [hrf]
    | some g =>
      have hg : g ∈ fs := oldestFact_mem h0
      rcases List.mem_cons.mp hr with hfr | hrfs
      · rcases hmin g (List.mem_cons_of_mem f hg) with hgr | hlt
        · have hnot : ¬ g.created_utc < f.created_utc := by
            rw [hgr, hfr]; omega
          simp [hnot, hgr, hfr]
        · have hfeq : f.created_utc = r.created_utc := by rw [← hfr]
          have hnot : ¬ g.created_utc < f.created_utc := by omega
          simp [hnot, hfr]
      · have ihh : oldestFact fs = some r :=
          ih hrfs (fun s hs => hmin s (List.mem_cons_of_mem f hs))
        have hgr : g = r := by
          rw [h0] at ihh
          cases ihh
          rfl
        rcases hmin f (List.mem_cons_self f fs) with hfr | hlt
        · by_cases hc : g.created_utc < f.created_utc <;>
            simp [hc, hgr, hfr]
        · have hc : g.created_utc < f.created_utc := by
            have hge : g.created_utc = r.created_utc := by rw [hgr]
            omega
          show (if g.created_utc < f.created_utc then some g else some f)
            = some r
          rw [if_pos hc, hgr]

/-- C1: insert-or-ignore persistence is idempotent.  Re-inserting a record
leaves the store unchanged; an insert either leaves the table untouched (a
conflicting insert is dropped without error, the existing rows are never
updated) or appends exactly the new row; and after any number of repeated
inserts of a record whose key is not yet present (and which satisfies the
not-null constraints), exactly one row with that key exists. -/
theorem insert_or_ignore_idempotent {ρ κ : Type} [DecidableEq κ]
    (keyOf : ρ → κ) (notNullOk : ρ → Bool) (table : List ρ) (row : ρ) :
    insert_or_ignore keyOf notNullOk
        (insert_or_ignore keyOf notNullOk table row) row
      = insert_or_ignore keyOf notNullOk table row
    ∧ (insert_or_ignore keyOf notNullOk table row = table
       ∨ insert_or_ignore keyOf notNullOk table row = table ++ [row])
    ∧ (∀ n : Nat, notNullOk row = true →
        countKey keyOf table (keyOf row) = 0 →
        countKey keyOf (repeatInsert keyOf notNullOk table row (n + 1))
            (keyOf row) = 1) := by
  refine ⟨?_, ?_, ?_⟩
  · by_cases hnn : notNullOk row = true
    · by_cases hc : conflicts keyOf table row = true
      · rw [insert_or_ignore_of_conflicts notNullOk hc,
          insert_or_ignore_of_conflicts notNullOk hc]
      · have hc' : conflicts keyOf table row = false := by
          simpa using hc
        have h1 : insert_or_ignore keyOf notNullOk table row = table ++ [row] := by
          simp [insert_or_ignore, hnn, hc']
        rw [h1]
        exact insert_or_ignore_of_conflicts notNullOk
          (conflicts_append_self keyOf table row)
    · have hnn' : notNullOk row = false := by simpa using hnn
      simp [insert_or_ignore, hnn']
  · by_cases hnn : notNullOk row = true
    · by_cases hc : conflicts keyOf table row = true
      · exact Or.inl (insert_or_ignore_of_conflicts notNullOk hc)
      · have hc' : conflicts keyOf table row = false := by simpa using hc
        exact Or.inr (by simp [insert_or_ignore, hnn, hc'])
    · have hnn' : notNullOk row = false := by simpa using hnn
      exact Or.inl (by simp [insert_or_ignore, hnn'])
  · intro n hnn h0
    induction n with
    | zero =>
      have hc : conflicts keyOf table row = false :=
        (conflicts_eq_false_iff keyOf table row).mpr h0
      have h1 : repeatInsert keyOf notNullOk table row 1 = table ++ [row] := by
        simp [repeatInsert, insert_or_ignore, hnn, hc]
      rw [h1, countKey_append_self, h0]
    | succ n ih =>
      have hc : conflicts keyOf
          (repeatInsert keyOf notNullOk table row (n + 1)) row = true := by
        by_cases hc0 : conflicts keyOf
            (repeatInsert keyOf notNullOk table row (n + 1)) row = true
        · exact hc0
        · have := (conflicts_eq_false_iff keyOf
            (repeatInsert keyOf notNullOk table row (n + 1)) row).mp
            (by simpa using hc0)
          omega
      have h2 : repeatInsert keyOf notNullOk table row (n + 2)
          = repeatInsert keyOf notNullOk table row (n + 1) := by
        show insert_or_ignore keyOf notNullOk
          (repeatInsert keyOf notNullOk table row (n + 1)) row
            = repeatInsert keyOf notNullOk table row (n + 1)
        exact insert_or_ignore_of_conflicts notNullOk hc
      rw [h2, ih]

/-- Witness for C1: three repeated inserts of the key 5 into the empty table
leave exactly one row. -/
theorem insert_or_ignore_idempotent_witness :
    notNullOkAlways 5 = true
    ∧ countKey (id : Nat → Nat) ([] : List Nat) 5 = 0
    ∧ countKey (id : Nat → Nat)
        (repeatInsert (id : Nat → Nat) notNullOkAlways [] 5 3) 5 = 1 :=
  ⟨rfl, rfl,
    (insert_or_ignore_idempotent (id : Nat → Nat) notNullOkAlways [] 5).2.2 2
      rfl rfl⟩

/-- C2 counterexample: a retail-catalog run in fetch mode that ends in an
unrecoverable error commits the rows inserted so far instead of rolling the
transaction back.  Starting from an empty store, a fetch-mode run that
inserted the row 7 and then failed leaves a store holding 7 — not the
initial empty store the claim promises. -/
theorem zappos_fetch_abort_commits :
    zapposMain (id : Nat → Nat) notNullOkAlways true ([] : List Nat) [7]
        ZapposRunEnd.failed = ([7], 1)
    ∧ ([7] : List Nat) ≠ ([] : List Nat) := by
  constructor
  · rfl
  · decide

/-- C2 amended: for runs of the image-ingest orchestrator
(src/scrape/images.py main) and for retail-catalog runs in search mode, an
unrecoverable error rolls back the entire transaction, leaving the store
exactly in its pre-run state with a non-zero exit status; a retail-catalog
run in fetch mode instead commits the work persisted so far on such an
error. -/
theorem abort_rolls_back {ρ κ : Type} [DecidableEq κ] (keyOf : ρ → κ)
    (notNullOk : ρ → Bool) (initial insertsSoFar : List ρ) :
    imagesMain keyOf notNullOk initial insertsSoFar ImagesRunEnd.failed
      = (initial, 1)
    ∧ zapposMain keyOf notNullOk false initial insertsSoFar ZapposRunEnd.failed
      = (initial, 1)
    ∧ zapposMain keyOf notNullOk true initial insertsSoFar ZapposRunEnd.failed
      = (applyInserts keyOf notNullOk initial insertsSoFar, 1) :=
  ⟨rfl, rfl, rfl⟩

/-- C3: when a throttling signal (`RateLimitError`, also `requests.Timeout`)
ends an image-ingest run, the orchestrator commits every insert performed so
far in the transaction — no rollback — and the exit status is non-zero. -/
theorem throttled_commits_partial {ρ κ : Type} [DecidableEq κ]
    (keyOf : ρ → κ) (notNullOk : ρ → Bool) (initial insertsSoFar : List ρ) :
    imagesMain keyOf notNullOk initial insertsSoFar ImagesRunEnd.throttled
      = (applyInserts keyOf notNullOk initial insertsSoFar, 1)
    ∧ 0 < (imagesMain keyOf notNullOk initial insertsSoFar
        ImagesRunEnd.throttled).2 :=
  ⟨rfl, by norm_num [imagesMain]⟩

/-- C4: `ImgurClient.get_json` raises the throttling signal exactly on a 429
response, or on an ok response with either remaining-call counter at or
below the safety margin of 3; it returns the parsed body exactly on an ok
response with both counters above the margin (absent counters never hit the
margin). -/
theorem get_json_throttling {β : Type} (r : ImgurResponse β) :
    (get_json r = GetJsonOutcome.rateLimited
      ↔ (r.status = 429 ∨ (respOk r = true ∧ near_rate_limit r = true)))
    ∧ (get_json r = GetJsonOutcome.success r.body
      ↔ (respOk r = true ∧ near_rate_limit r = false))
    ∧ (near_rate_limit r = true
      ↔ ((∃ c, r.userRemaining = some c ∧ c ≤ 3)
         ∨ (∃ c, r.clientRemaining = some c ∧ c ≤ 3))) := by
  have hmargin : near_rate_limit r = true
      ↔ ((∃ c, r.userRemaining = some c ∧ c ≤ 3)
         ∨ (∃ c, r.clientRemaining = some c ∧ c ≤ 3)) := by
    cases hu : r.userRemaining <;> cases hc : r.clientRemaining <;>
      simp [near_rate_limit, hit_threshold, min_stopping_credits, hu, hc]
  refine ⟨?_, ?_, hmargin⟩
  · by_cases hok : respOk r = true
    · have h429 : ¬ r.status = 429 := by
        have hlt : r.status < 400 := by simpa [respOk] using hok
        omega
      by_cases hnear : near_rate_limit r = true
      · simp [get_json, hok, hnear, h429]
      · simp [get_json, hok, hnear, h429]
    · have hok' : respOk r = false := by simpa using hok
      by_cases h429 : r.status = 429
      · simp [get_json, imgur_on_failure, hok', h429]
      · by_cases hauth : r.status ∈ fail_on_statuses
        · simp [get_json, imgur_on_failure, hok', h429, hauth]
        · simp [get_json, imgur_on_failure, hok', h429, hauth]
  · by_cases hok : respOk r = true
    · by_cases hnear : near_rate_limit r = true
      · simp [get_json, hok, hnear]
      · simp [get_json, hok, hnear]
    · have hok' : respOk r = false := by simpa using hok
      by_cases h429 : r.status = 429
      · simp [get_json, imgur_on_failure, hok', h429]
      · by_cases hauth : r.status ∈ fail_on_statuses
        · simp [get_json, imgur_on_failure, hok', h429, hauth]
        · simp [get_json, imgur_on_failure, hok', h429, hauth]

/-- C5: the resume-cursor computation returns the identifier of the
persisted record with the minimum creation timestamp for the query, and
null when no record for that query is persisted. -/
theorem get_oldest_submission_spec (rows : List SubmissionFact)
    (query : String) :
    ((rows.filter fun r => r.search_query == query) = [] →
      get_oldest_submission rows query = none)
    ∧ (∀ r ∈ rows, r.search_query = query →
        (∀ s ∈ rows, s.search_query = query →
          s = r ∨ r.created_utc < s.created_utc) →
        get_oldest_submission rows query = some r.id) := by
  constructor
  · intro h
    simp [get_oldest_submission, h, oldestFact]
  · intro r hr hq hmin
    have hrf : r ∈ rows.filter fun s => s.search_query == query := by
      simp [List.mem_filter, hr, hq]
    have hminf : ∀ s ∈ rows.filter (fun s => s.search_query == query),
        s = r ∨ r.created_utc < s.created_utc := by
      intro s hs
      rw [List.mem_filter] at hs
      exact hmin s hs.1 (by simpa using hs.2)
    simp [get_oldest_submission, oldestFact_of_min hrf hminf]

/-- Witness for C5: with persisted timestamps 20, 10, 30 for query Q, the
resume cursor is the id of the timestamp-10 row; for query R with no rows it
is null. -/
theorem get_oldest_submission_spec_witness :
    get_oldest_submission
        [⟨"a", 20, "Q"⟩, ⟨"b", 10, "Q"⟩, ⟨"c", 30, "Q"⟩] "Q" = some "b"
    ∧ get_oldest_submission
        [⟨"a", 20, "Q"⟩, ⟨"b", 10, "Q"⟩, ⟨"c", 30, "Q"⟩] "R" = none :=
  ⟨(get_oldest_submission_spec
        [⟨"a", 20, "Q"⟩, ⟨"b", 10, "Q"⟩, ⟨"c", 30, "Q"⟩] "Q").2
      ⟨"b", 10, "Q"⟩ (by decide) (by decide) (by decide),
   (get_oldest_submission_spec
        [⟨"a", 20, "Q"⟩, ⟨"b", 10, "Q"⟩, ⟨"c", 30, "Q"⟩] "R").1 (by decide)⟩

/-- On the mocked `N`-item backend, the pages emitted from offset `k < N`
number `ceil((N - k) / P)`, given fuel at least `N - k`. -/
theorem paginated_search_mkBackend_go (N P : Nat) (hP : 0 < P) :
    ∀ (fuel : Nat) (cur : Option Nat), cur.getD 0 < N →
    N - cur.getD 0 ≤ fuel →
    (paginated_search (mkBackend N P) fuel cur).length
      = (N - cur.getD 0 + P - 1) / P := by
  intro fuel
  induction fuel with
  | zero =>
    intro cur h1 h2
    exact absurd h1 (by omega)
  | succ fuel ih =>
    intro cur h1 h2
    by_cases hcont : cur.getD 0 + P < N
    · have ihh := ih (some (cur.getD 0 + P))
        (by simp only [Option.getD_some]; omega)
        (by simp only [Option.getD_some]; omega)
      simp only [Option.getD_some] at ihh
      have hstep : paginated_search (mkBackend N P) (fuel + 1) cur
          = mkBackend N P cur
            :: paginated_search (mkBackend N P) fuel
                (some (cur.getD 0 + P)) := by
        simp [paginated_search, mkBackend, hcont]
      rw [hstep]
      rw [List.length_cons, ihh]
      have e2 : N - (cur.getD 0 + P) + P - 1 = N - cur.getD 0 - 1 := by omega
      have e1 : N - cur.getD 0 + P - 1 = (N - cur.getD 0 - 1) + P := by omega
      rw [e2, e1, Nat.add_div_right _ hP]
    · have hstep : paginated_search (mkBackend N P) (fuel + 1) cur
          = [mkBackend N P cur] := by
        simp [paginated_search, mkBackend, hcont]
      rw [hstep]
      have e3 : (N - cur.getD 0 + P - 1) / P = 1 :=
        Nat.div_eq_of_lt_le (by omega) (by omega)
      rw [e3]
      rfl

/-- C6: the cursor-based paginated search stops on a non-ok response without
emitting that page (end-of-stream, no exception); on an ok response it emits
the page and continues until the next cursor read from the page body is
null; and on a backend serving `N` items at page size `P` (all responses ok,
cursor null only after the last item) it emits exactly `ceil(N/P)` pages. -/
theorem paginated_search_spec :
    (∀ (α : Type) (backend : Option α → SearchPage α) (cur : Option α)
        (fuel : Nat), (backend cur).ok = false →
        paginated_search backend (fuel + 1) cur = [])
    ∧ (∀ (α : Type) (backend : Option α → SearchPage α) (cur : Option α)
        (fuel : Nat), (backend cur).ok = true → (backend cur).after = none →
        paginated_search backend (fuel + 1) cur = [backend cur])
    ∧ (∀ (α : Type) (backend : Option α → SearchPage α) (cur : Option α)
        (fuel : Nat) (a : α), (backend cur).ok = true →
        (backend cur).after = some a →
        paginated_search backend (fuel + 1) cur
          = backend cur :: paginated_search backend fuel (some a))
    ∧ (∀ N P fuel : Nat, 0 < N → 0 < P → N ≤ fuel →
        (paginated_search (mkBackend N P) fuel none).length
          = (N + P - 1) / P) := by
  refine ⟨?_, ?_, ?_, ?_⟩
  · intro α backend cur fuel h
    simp [paginated_search, h]
  · intro α backend cur fuel hok hafter
    simp [paginated_search, hok, hafter]
  · intro α backend cur fuel a hok hafter
    simp [paginated_search, hok, hafter]
  · intro N P fuel hN hP hfuel
    have := paginated_search_mkBackend_go N P hP fuel none
      (by simpa using hN) (by simpa using hfuel)
    simpa using this

/-- Witness for C6: a failing backend emits no page, and the 5-item backend
at page size 2 emits ceil(5/2) = 3 pages. -/
theorem paginated_search_spec_witness :
    (failBackend none).ok = false
    ∧ paginated_search failBackend 4 none = []
    ∧ (paginated_search (mkBackend 5 2) 5 none).length = (5 + 2 - 1) / 2 :=
  ⟨rfl, paginated_search_spec.1 Nat failBackend none 3 rfl,
    paginated_search_spec.2.2.2 5 2 5 (by decide) (by decide) (by decide)⟩

/-- C7: the retail-catalog paginated search stops — issuing no further
request and returning the accumulated results — as soon as the accumulated
result count reaches the stopping total, and that total is read from the
first requested page (the page body's `totalResultCount`) when not yet
set. -/
theorem zappos_paginated_search_stops :
    (∀ (α : Type) (backend : Nat → CatalogPage α) (fuel page t : Nat)
        (results : List α), t ≤ results.length →
        zapposSearchGo backend (fuel + 1) page (some t) results
          = some (results, 0))
    ∧ (∀ (α : Type) (backend : Nat → CatalogPage α) (fuel page : Nat)
        (results : List α),
        zapposSearchGo backend (fuel + 1) page none results
          = (zapposSearchGo backend fuel (page + 1)
              (some (backend page).totalResultCount)
              (results ++ (backend page).results)).map
              (fun p => (p.1, p.2 + 1))) := by
  constructor
  · intro α backend fuel page t results h
    have hlt : ¬ results.length < t := by omega
    simp [zapposSearchGo, hlt]
  · intro α backend fuel page results
    simp [zapposSearchGo]

/-- Witness for C7: with stopping total 3 already reached by three
accumulated results, the loop returns them at once with zero further
requests. -/
theorem zappos_paginated_search_stops_witness :
    (3 : Nat) ≤ ([1, 2, 3] : List Nat).length
    ∧ zapposSearchGo constCatalogBackend 1 2 (some 3) [1, 2, 3]
        = some ([1, 2, 3], 0) :=
  ⟨by decide,
    zappos_paginated_search_stops.1 Nat constCatalogBackend 0 2 3 [1, 2, 3]
      (by decide)⟩

/-- C8: `get_id` is invariant under an appended trailing slash, an appended
URL fragment and an appended file extension: the album URL
`https://host/a/ABC123` and its three variants all yield the resource id
`ABC123`. -/
theorem get_id_invariance :
    get_id "https://host/a/ABC123" = Except.ok (some "ABC123")
    ∧ get_id "https://host/a/ABC123/" = Except.ok (some "ABC123")
    ∧ get_id "https://host/a/ABC123#frag" = Except.ok (some "ABC123")
    ∧ get_id "https://host/a/ABC123.jpg" = Except.ok (some "ABC123") :=
  ⟨rfl, rfl, rfl, rfl⟩

/-- C9: on a URL whose path has no non-empty segment (a bare host, with or
without trailing slash) both `get_id` and `sniff_imgur_resource` raise
`ValueError`; `get_id` never returns `None` (it either raises or returns a
string), so the `hash_ is None` skip branches of `ingest_albums` and
`ingest_standalones` are unreachable (the loop body either propagates the
error or processes the extracted hash). -/
theorem get_id_bare_host_raises :
    get_id "https://imgur.com/" = Except.error ()
    ∧ get_id "https://imgur.com" = Except.error ()
    ∧ sniff_imgur_resource "https://imgur.com/" = Except.error ()
    ∧ sniff_imgur_resource "https://imgur.com" = Except.error ()
    ∧ (∀ url : String, get_id url = Except.error ()
        ∨ ∃ h, get_id url = Except.ok (some h))
    ∧ (∀ url : String, ingest_media_step url = IngestStep.raised
        ∨ ∃ h, ingest_media_step url = IngestStep.processed h) := by
  refine ⟨rfl, rfl, rfl, rfl, ?_, ?_⟩
  · intro url
    unfold get_id
    cases (pathSlugs url).getLast? with
    | none => exact Or.inl rfl
    | some s => exact Or.inr ⟨_, rfl⟩
  · intro url
    unfold ingest_media_step get_id
    cases (pathSlugs url).getLast? with
    | none => exact Or.inl rfl
    | some s => exact Or.inr ⟨_, rfl⟩

/-- C10: `ZapposClient.product_description` raises `ValueError` before
issuing any HTTP request exactly when the product id is negative; for a
non-negative id no precondition error is raised and the product-detail
request is dispatched. -/
theorem product_description_guard (product_id : Int) :
    (product_description product_id = ProductDescStep.valueError
      ↔ product_id < 0)
    ∧ (product_description product_id
        = ProductDescStep.request
            (zappos_base_url ++ "/Product/" ++ toString product_id)
      ↔ 0 ≤ product_id) := by
  by_cases h : product_id < 0
  · refine ⟨by simp [product_description, h], ?_⟩
    simp only [product_description, if_pos h]
    constructor
    · intro hc
      cases hc
    · intro hc
      omega
  · refine ⟨by simp [product_description, h], ?_⟩
    simp only [product_description, if_neg h]
    constructor
    · intro _
      omega
    · intro _
      trivial

end GWR
